import Mathlib

/-!
Verification of `sumologic_export.py` against its specification.

Shallow embedding conventions:
* Python `datetime` values are modelled as `Nat` seconds on a proleptic
  Gregorian scale whose day zero is 0000-03-01 (all dates accepted by
  `datetime.strptime`, i.e. years ≥ 1, are nonnegative on this scale);
  `timedelta(days=1)` is `86400` seconds.
* The network is modelled by oracles: the remote service's responses are
  parameters of the embedded functions, and side effects (requests, sleeps,
  file writes, log lines) are reified as event traces.
* `gzip` is modelled as a lossless codec: the decompressed content of a
  written file is exactly the byte sequence handed to `f.write`, kept here
  as a `List Char`.
-/

namespace SumologicExport

/-! ## Constants from the source -/

/-- Constant `SumologicClient.SUMOLOGIC_URL`. -/
def SUMOLOGIC_URL : String := "https://api.sumologic.com/api/v1/search/jobs"

/-- Constant `SumologicClient.MESSAGES_PER_PAGE`. -/
def MESSAGES_PER_PAGE : Nat := 10000

/-- Constant `Exporter.INCREMENT = timedelta(days=1)`, in seconds. -/
def INCREMENT : Nat := 86400

/-- Constant `Exporter.DEFAULT_TIMERANGE = timedelta(days=30)`, in seconds. -/
def DEFAULT_TIMERANGE : Nat := 30 * 86400

/-- Constant `Exporter.SLEEP_SECONDS`. -/
def SLEEP_SECONDS : Nat := 60

/-- The directory created by `Exporter.__init__` (`mkdir('exports')`). -/
def EXPORT_DIR : String := "exports"

/-! ## Calendar arithmetic

`datetime.strptime(s, '%Y-%m-%d')` yields a civil date; arithmetic and
comparisons on `datetime` are modelled on a seconds scale.  The two civil
conversions below are the standard era-based Gregorian algorithms,
restricted to years ≥ 1 so that all quantities stay in `Nat`. -/

/-- Days from 0000-03-01 to civil date `(y, m, d)` (valid for `y ≥ 1`). -/
def daysFromCivil (y m d : Nat) : Nat :=
  let y' := if m ≤ 2 then y - 1 else y
  let era := y' / 400
  let yoe := y' % 400
  let mp := (m + 9) % 12
  let doy := (153 * mp + 2) / 5 + d - 1
  let doe := yoe * 365 + yoe / 4 - yoe / 100 + doy
  era * 146097 + doe

/-- Civil date `(y, m, d)` of day number `z` (inverse of `daysFromCivil`). -/
def civilFromDays (z : Nat) : Nat × Nat × Nat :=
  let era := z / 146097
  let doe := z % 146097
  let yoe := (doe - doe / 1460 + doe / 36524 - doe / 146096) / 365
  let y0 := yoe + era * 400
  let doy := doe - (365 * yoe + yoe / 4 - yoe / 100)
  let mp := (5 * doy + 2) / 153
  let d := doy - (153 * mp + 2) / 5 + 1
  let m := if mp < 10 then mp + 3 else mp - 9
  (if m ≤ 2 then y0 + 1 else y0, m, d)

/-- Decimal digit character. -/
def digitChar (n : Nat) : Char := Char.ofNat (48 + n % 10)

/-- Zero-padded two-digit decimal rendering (`strftime` `%m` / `%d`). -/
def pad2 (n : Nat) : String :=
  String.mk [digitChar (n / 10), digitChar n]

/-- Zero-padded four-digit decimal rendering (`strftime` `%Y`). -/
def pad4 (n : Nat) : String :=
  String.mk [digitChar (n / 1000), digitChar (n / 100), digitChar (n / 10), digitChar n]

/-- Embedding of `prettify = lambda x: x.strftime('%Y-%m-%d')` on a seconds timestamp. -/
def prettify (ts : Nat) : String :=
  let c := civilFromDays (ts / 86400)
  pad4 c.1 ++ "-" ++ pad2 c.2.1 ++ "-" ++ pad2 c.2.2

/-! ## Parsing `YYYY-MM-DD` (`datetime.strptime(s, '%Y-%m-%d')`)

CPython's `_strptime` matches `%Y` as exactly four digits and `%m`/`%d` as
one or two digits, requires the whole string to be consumed, and then
validates the fields by constructing a `datetime` (so month ∈ 1..12,
day ∈ 1..days-in-month, year ≥ 1). -/

/-- Split a character list on a separator (used for the `-` field
separators of the date format and, on the reading side, for newlines). -/
def splitChar (sep : Char) : List Char → List (List Char)
  | [] => [[]]
  | c :: rest =>
    if c = sep then
      [] :: splitChar sep rest
    else
      match splitChar sep rest with
      | [] => [[c]]
      | l :: ls => (c :: l) :: ls

/-- ASCII decimal digit test. -/
def isDigitChar (c : Char) : Bool := 48 ≤ c.toNat && c.toNat ≤ 57

/-- Numeric value of a digit string. -/
def digitsToNat (l : List Char) : Nat :=
  l.foldl (fun a c => 10 * a + (c.toNat - 48)) 0

/-- Gregorian leap-year test (`calendar.isleap`, used by `datetime`). -/
def isLeap (y : Nat) : Bool := y % 4 = 0 && (y % 100 ≠ 0 || y % 400 = 0)

/-- Length of month `m` in year `y` (1-based month). -/
def daysInMonth (y m : Nat) : Nat :=
  if m = 2 then (if isLeap y then 29 else 28)
  else if m = 4 ∨ m = 6 ∨ m = 9 ∨ m = 11 then 30
  else 31

/-- Embedding of `datetime.strptime(s, '%Y-%m-%d').replace(hour=0, minute=0, second=0,
microsecond=0)` as a seconds timestamp; `none` when `strptime` (or the
`datetime` constructor it calls) raises. -/
def parseDate (s : String) : Option Nat :=
  match splitChar '-' s.data with
  | [ys, ms, ds] =>
    if ys.length = 4 && ys.all isDigitChar &&
       1 ≤ ms.length && ms.length ≤ 2 && ms.all isDigitChar &&
       1 ≤ ds.length && ds.length ≤ 2 && ds.all isDigitChar then
      let y := digitsToNat ys
      let m := digitsToNat ms
      let d := digitsToNat ds
      if 1 ≤ y && 1 ≤ m && m ≤ 12 && 1 ≤ d && d ≤ daysInMonth y m then
        some (86400 * daysFromCivil y m d)
      else none
    else none
  | _ => none

/-! ## Window planning (`Exporter.export`, lines 276–297)

The export loop is `date = self.start; while date < self.stop: ...;
date += self.INCREMENT`, submitting one job per iteration for the window
`(date, date + INCREMENT)`.  `plan` is that loop's window sequence. -/

/-- The sequence of windows the export loop iterates over. -/
def plan (start stop : Nat) : List (Nat × Nat) :=
  if _h : start < stop then
    (start, start + INCREMENT) :: plan (start + INCREMENT) stop
  else []
  termination_by stop - start
  decreasing_by simp [INCREMENT]; omega

/-! ## The export engine as an event trace -/

/-- What the mocked remote service reports for one window: the job id
returned by the `202` response and the final `messageCount`. -/
structure WindowResult where
  jobId : String
  count : Nat

/-- Observable actions of one run of `Exporter.export`. -/
inductive Ev where
  /-- Event: `self.client.create_job(date, date + self.INCREMENT)` succeeded. -/
  | createJob (start stop : Nat)
  /-- Event: `sleep(self.SLEEP_SECONDS)`. -/
  | sleepFor (secs : Nat)
  /-- Event: `self.client.get_count(job_url)` returned. -/
  | getCount (jobUrl : String)
  /-- Event: `write_to_file(prettify(date), ...)` — gzip file opened at path
  `fileName` (relative to the working directory) and `count` records
  written. -/
  | write (fileName : String) (count : Nat)
  /-- Event: `print ' - No logs found.'`. -/
  | noLogs (date : Nat)
deriving DecidableEq

/-- One iteration of the export loop (lines 278–297): create the job,
pause, query the count, then either write the logs or report none. -/
def windowEvents (oracle : Nat → WindowResult) (date : Nat) : List Ev :=
  let r := oracle date
  let jobUrl := SUMOLOGIC_URL ++ "/" ++ r.jobId
  [Ev.createJob date (date + INCREMENT), Ev.sleepFor SLEEP_SECONDS,
   Ev.getCount jobUrl] ++
  (if r.count ≠ 0 then [Ev.write (prettify date) r.count]
   else [Ev.noLogs date])

/-- The full trace of the export loop: the loop body run once per planned
window, in order. -/
def exportTrace (oracle : Nat → WindowResult) (start stop : Nat) : List Ev :=
  (plan start stop).flatMap fun w => windowEvents oracle w.1

/-- Remote HTTP calls in a trace (job submissions and count queries). -/
def remoteCallCount (tr : List Ev) : Nat :=
  tr.countP fun e =>
    match e with
    | Ev.createJob _ _ => true
    | Ev.getCount _ => true
    | _ => false

/-! ## Date initialization (`Exporter.init_dates`, lines 219–253) -/

/-- Python truthiness of an optional string argument (`if start:`). -/
def truthy : Option String → Option String
  | some s => if s.length = 0 then none else some s
  | none => none

/-- One boundary of `init_dates`: parse and validate a given date string,
or fall back to the default.  `Except.error 1` is `SystemExit(1)`. -/
def initDate (now : Nat) (arg : Option String) (dflt : Nat) : Except Nat Nat :=
  match truthy arg with
  | some s =>
    match parseDate s with
    | none => Except.error 1
    | some d => if now < d then Except.error 1 else Except.ok d
  | none => Except.ok dflt

/-- Midnight truncation `.replace(hour=0, minute=0, second=0, microsecond=0)`. -/
def dayFloor (t : Nat) : Nat := 86400 * (t / 86400)

/-- Embedding of `Exporter.init_dates(start, stop)`: the start boundary is processed
first (default `now - DEFAULT_TIMERANGE` at midnight), then the stop
boundary (default `now` at midnight). -/
def init_dates (now : Nat) (start stop : Option String) :
    Except Nat (Nat × Nat) :=
  match initDate now start (dayFloor (now - DEFAULT_TIMERANGE)) with
  | Except.error c => Except.error c
  | Except.ok s =>
    match initDate now stop (dayFloor now) with
    | Except.error c => Except.error c
    | Except.ok t => Except.ok (s, t)

/-- Embedding of `Exporter.export(start, stop)`: validate the dates, then run the
window loop.  The first component is the event trace (empty when
`init_dates` exits), the second the process outcome. -/
def «export» (now : Nat) (start stop : Option String)
    (oracle : Nat → WindowResult) : List Ev × Except Nat Unit :=
  match init_dates now start stop with
  | Except.error c => ([], Except.error c)
  | Except.ok (s, t) => (exportTrace oracle s t, Except.ok ())

/-! ## Pagination (`SumologicClient.get_logs`, lines 127–157)

The generator loops `for page in xrange(0, count / MESSAGES_PER_PAGE + 1)`,
GETs `job_url + '/messages'` with `limit = MESSAGES_PER_PAGE` and
`offset = MESSAGES_PER_PAGE * page` (retrying until a 200), then yields
every record of that page before moving to the next page.  `records` is
the remote job's full result list; the expected page at offset `o` is
`(records.drop o).take limit`, which is what each retry loop is assumed to
eventually receive. -/

/-- Observable actions of the `get_logs` generator. -/
inductive LogEv (α : Type) where
  /-- A `GET .../messages?limit&offset` that returned 200. -/
  | pageRequest (limit offset : Nat)
  /-- Event: `yield log['map']`. -/
  | yieldRec (r : α)
deriving DecidableEq

/-- The page of `records` addressed by page index `i`. -/
def pageOf (records : List α) (i : Nat) : List α :=
  (records.drop (MESSAGES_PER_PAGE * i)).take MESSAGES_PER_PAGE

/-- The event trace of `get_logs(job_url, count)` consumed to exhaustion. -/
def get_logs (count : Nat) (records : List α) : List (LogEv α) :=
  (List.range (count / MESSAGES_PER_PAGE + 1)).flatMap fun page =>
    LogEv.pageRequest MESSAGES_PER_PAGE (MESSAGES_PER_PAGE * page) ::
      (pageOf records page).map LogEv.yieldRec

/-- The `(limit, offset)` pair of a page-request event. -/
def reqOf : LogEv α → Option (Nat × Nat)
  | LogEv.pageRequest l o => some (l, o)
  | _ => none

/-- The record of a yield event. -/
def recOf : LogEv α → Option α
  | LogEv.yieldRec r => some r
  | _ => none

/-- The `(limit, offset)` pairs of the page requests in a trace. -/
def requestsOf (tr : List (LogEv α)) : List (Nat × Nat) :=
  tr.filterMap reqOf

/-- The records yielded by a trace, in order. -/
def yieldsOf (tr : List (LogEv α)) : List α :=
  tr.filterMap recOf

/-! ## Job submission (`SumologicClient.create_job`, lines 76–104)

`while True: try: POST; if 202: return url; raise; except: print; sleep(1)`.
Each attempt's outcome is supplied by the transport; the loop consumes
outcomes until the first acceptance. -/

/-- Outcome of one `POST` attempt: accepted with a job id (HTTP 202 with
an `id` field), or any failure (non-202 status, transport error or
malformed body — all reach the same `except` clause). -/
inductive JobAttempt where
  | accepted (id : String)
  | failed
deriving DecidableEq

/-- Embedding of `create_job`, run against a finite list of attempt outcomes.  Returns
the job URL, the number of attempts consumed, and the list of sleeps (in
seconds) performed, or `none` when every supplied outcome fails (the real
loop would still be running). -/
def create_job : List JobAttempt → Option (String × Nat × List Nat)
  | [] => none
  | JobAttempt.accepted id :: _ =>
    some (SUMOLOGIC_URL ++ "/" ++ id, 1, [])
  | JobAttempt.failed :: rest =>
    (create_job rest).map fun r => (r.1, r.2.1 + 1, 1 :: r.2.2)

/-! ## Transport (`SumologicClient.post` / `_resp`, lines 168–183) -/

/-- Observable actions of `_resp`. -/
inductive HttpEv where
  /-- Event: `self.session.cookies.save(ignore_discard=True)`. -/
  | cookieSave
  /-- Event: `raise Exception("Got status %s ...")` for a status ≥ 300. -/
  | raised (status : Nat)
  /-- The response object was returned to the caller. -/
  | returned (status : Nat)
deriving DecidableEq

/-- Embedding of `_resp(resp, save_cookie)`: save the cookie jar first when asked,
then check the status. -/
def resp_events (status : Nat) (save_cookie : Bool) : List HttpEv :=
  (if save_cookie then [HttpEv.cookieSave] else []) ++
  (if 300 ≤ status then [HttpEv.raised status] else [HttpEv.returned status])

/-- Embedding of `post`: it always calls `_resp(..., save_cookie=True)`. -/
def post_events (status : Nat) : List HttpEv := resp_events status true

/-- Embedding of `get`: it calls `_resp` with the default `save_cookie=False`. -/
def get_events (status : Nat) : List HttpEv := resp_events status false

/-! ## The sink (`write_to_file`, lines 302–305)

`write_to_file(file_name, logs)` opens `gzip.open(file_name, mode='wb')`
(truncating) and writes `dumps(log) + '\n'` per record.  A log record is
the flat string-to-string mapping extracted from `log['map']`, modelled as
an association list; `dumps` is `json.dumps` on such a mapping with its
default separators.  `json.dumps` escapes `"` , `\`, and the ASCII control
characters inside string values, so its output never contains a raw
newline.  (The `ensure_ascii` escaping of non-ASCII characters is omitted:
it only rewrites characters that are not newlines and does not affect the
line structure of the file.) -/

/-- A log record (`log['map']`): field name to field value. -/
abbrev JRecord := List (String × String)

/-- Hexadecimal digit character (lowercase, as in `json.dumps` output). -/
def digitChar16 (n : Nat) : Char :=
  if n % 16 < 10 then Char.ofNat (48 + n % 16) else Char.ofNat (87 + n % 16)

/-- JSON string-character escaping as in `json.dumps`. -/
def escapeChar (c : Char) : List Char :=
  if c = '"' then ['\\', '"']
  else if c = '\\' then ['\\', '\\']
  else if c = '\n' then ['\\', 'n']
  else if c = '\r' then ['\\', 'r']
  else if c = '\t' then ['\\', 't']
  else if c.toNat < 32 then
    '\\' :: 'u' :: '0' :: '0' ::
      [digitChar16 (c.toNat / 16), digitChar16 c.toNat]
  else [c]

/-- A JSON string literal for `s`. -/
def encodeString (s : String) : List Char :=
  '"' :: s.data.flatMap escapeChar ++ ['"']

/-- Python `sep.join(pieces)`: the pieces with `sep` between
consecutive ones. -/
def joinSep (sep : List Char) : List (List Char) → List Char
  | [] => []
  | [x] => x
  | x :: xs => x ++ sep ++ joinSep sep xs

/-- Embedding of `json.dumps` on a flat string mapping, with the default
`', '` / `': '` separators. -/
def dumps (r : JRecord) : List Char :=
  Char.ofNat 123 ::
    joinSep [',', ' ']
      (r.map fun kv => encodeString kv.1 ++ ':' :: ' ' :: encodeString kv.2) ++
    [Char.ofNat 125]

/-- Embedding of `write_to_file(file_name, logs)`: the path handed to `gzip.open` and
the decompressed content of the resulting file. -/
def write_to_file (file_name : String) (logs : List JRecord) :
    String × List Char :=
  (file_name, (logs.map fun log => dumps log ++ ['\n']).flatten)

/-! ## Helper lemmas -/

theorem plan_of_lt {start stop : Nat} (h : start < stop) :
    plan start stop = (start, start + INCREMENT) :: plan (start + INCREMENT) stop := by
  rw [plan]; simp [h]

theorem plan_of_ge {start stop : Nat} (h : stop ≤ start) :
    plan start stop = [] := by
  rw [plan]; simp; omega

/-! ## Theorems for the claims -/

/-- C4: when the first `n` job-submission attempts fail and attempt `n+1`
returns HTTP 202 with a job id, `create_job` returns the job handle
exactly after attempt `n+1`, propagates none of the earlier failures, and
sleeps 1 second after each failed attempt; this holds for every `n`, so
there is no maximum attempt count. -/
theorem create_job_retries_until_accepted (n : Nat) (id : String)
    (rest : List JobAttempt) :
    create_job (List.replicate n JobAttempt.failed ++
        JobAttempt.accepted id :: rest) =
      some (SUMOLOGIC_URL ++ "/" ++ id, n + 1, List.replicate n 1) := by
  induction n with
  | zero => simp [create_job]
  | succ k ih => simp [List.replicate_succ, create_job, ih]

/-- C10: every `POST` saves the session cookie jar to disk as the first
action of `_resp`, before the status check, so the cookie store is
updated even when the call then fails with a status ≥ 300. -/
theorem post_saves_cookie_before_status_check :
    (∀ status : Nat, (post_events status).head? = some HttpEv.cookieSave) ∧
    (∀ status : Nat, 300 ≤ status →
      post_events status = [HttpEv.cookieSave, HttpEv.raised status]) := by
  constructor
  · intro status
    by_cases h : 300 ≤ status <;> simp [post_events, resp_events, h]
  · intro status h
    simp [post_events, resp_events, h]

/-- Witness for C10 at status 404. -/
theorem post_saves_cookie_before_status_check_witness :
    post_events 404 = [HttpEv.cookieSave, HttpEv.raised 404] :=
  post_saves_cookie_before_status_check.2 404 (by decide)

/-- C8: with `start == stop` the planner yields no windows, and whenever
`stop ≤ start` the export loop produces an empty trace, in particular
zero remote calls. -/
theorem plan_empty_and_no_remote_calls :
    (∀ s : Nat, plan s s = []) ∧
    (∀ (oracle : Nat → WindowResult) (s t : Nat), t ≤ s →
      exportTrace oracle s t = [] ∧
      remoteCallCount (exportTrace oracle s t) = 0) := by
  constructor
  · intro s
    exact plan_of_ge le_rfl
  · intro oracle s t h
    rw [exportTrace, plan_of_ge h]
    simp [remoteCallCount]

/-- Witness for C8 at `start = stop = 5` and `start = 7 > stop = 3`. -/
theorem plan_empty_and_no_remote_calls_witness :
    plan 5 5 = [] ∧
    exportTrace (fun _ => ⟨"J", 0⟩) 7 3 = [] ∧
    remoteCallCount (exportTrace (fun _ => ⟨"J", 0⟩) 7 3) = 0 :=
  ⟨plan_empty_and_no_remote_calls.1 5,
   (plan_empty_and_no_remote_calls.2 (fun _ => ⟨"J", 0⟩) 7 3 (by decide)).1,
   (plan_empty_and_no_remote_calls.2 (fun _ => ⟨"J", 0⟩) 7 3 (by decide)).2⟩

/-- C6: for a window whose reported message count is zero, the loop body
emits no write event — it logs "no logs found" instead — and the trace
continues with the remaining windows. -/
theorem export_zero_count_skips_write (oracle : Nat → WindowResult)
    (date stop : Nat) (hlt : date < stop)
    (hzero : (oracle date).count = 0) :
    exportTrace oracle date stop =
      Ev.createJob date (date + INCREMENT) :: Ev.sleepFor SLEEP_SECONDS ::
        Ev.getCount (SUMOLOGIC_URL ++ "/" ++ (oracle date).jobId) ::
        Ev.noLogs date :: exportTrace oracle (date + INCREMENT) stop ∧
    (∀ f n, Ev.write f n ∉
      [Ev.createJob date (date + INCREMENT), Ev.sleepFor SLEEP_SECONDS,
       Ev.getCount (SUMOLOGIC_URL ++ "/" ++ (oracle date).jobId),
       Ev.noLogs date]) := by
  constructor
  · rw [exportTrace, plan_of_lt hlt]
    simp [windowEvents, hzero, exportTrace]
  · intro f n
    simp

/-- Witness for C6: a zero-count window at date 0 with stop one day later. -/
theorem export_zero_count_skips_write_witness :
    exportTrace (fun _ => ⟨"J", 0⟩) 0 86400 =
      Ev.createJob 0 (0 + INCREMENT) :: Ev.sleepFor SLEEP_SECONDS ::
        Ev.getCount (SUMOLOGIC_URL ++ "/" ++ "J") ::
        Ev.noLogs 0 :: exportTrace (fun _ => ⟨"J", 0⟩) (0 + INCREMENT) 86400 :=
  (export_zero_count_skips_write (fun _ => ⟨"J", 0⟩) 0 86400 (by decide) rfl).1

/-- Closed form of the window loop: `⌈(stop − start) / 86400⌉` full
one-day windows starting at `start`. -/
theorem plan_eq (start stop : Nat) :
    plan start stop =
      (List.range ((stop - start + 86399) / 86400)).map
        (fun i => (start + 86400 * i, start + 86400 * (i + 1))) := by
  by_cases h : start < stop
  · have ih := plan_eq (start + 86400) stop
    have hn : (stop - start + 86399) / 86400 =
        (stop - (start + 86400) + 86399) / 86400 + 1 := by omega
    rw [plan_of_lt h, hn, List.range_succ_eq_map, List.map_cons, List.map_map]
    simp only [INCREMENT]
    have htail : (List.range ((stop - (start + 86400) + 86399) / 86400)).map
        (fun i => (start + 86400 + 86400 * i, start + 86400 + 86400 * (i + 1))) =
        (List.range ((stop - (start + 86400) + 86399) / 86400)).map
          ((fun i => (start + 86400 * i, start + 86400 * (i + 1))) ∘ Nat.succ) := by
      apply List.map_congr_left
      intro i _
      simp only [Function.comp_apply, Nat.succ_eq_add_one, Prod.mk.injEq]
      omega
    rw [ih, htail]
    norm_num
  · have h0 : stop - start = 0 := by omega
    rw [plan_of_ge (by omega), h0]
    norm_num
  termination_by stop - start
  decreasing_by omega

/-- C2 (amended): for `start < stop` the window loop emits
`n = ⌈(stop − start) / 86400⌉` windows; they are gap-free, non-overlapping
and ascending (window `i` is exactly `[start + 86400·i, start + 86400·(i+1))`),
the first starts at `start`, and the last ends at `start + 86400·n`, which
is ≥ `stop` and equals `stop` exactly when `stop − start` is a multiple of
the one-day increment — when it is not, the final window keeps its full
one-day width and overshoots `stop` instead of being clamped to it. -/
theorem plan_windows_structure (start stop : Nat) (h : start < stop) :
    (plan start stop).length = (stop - start + 86399) / 86400 ∧
    (∀ i (hi : i < (plan start stop).length),
      (plan start stop).get ⟨i, hi⟩ =
        (start + 86400 * i, start + 86400 * (i + 1))) ∧
    (plan start stop).head? = some (start, start + 86400) ∧
    (∀ w ∈ plan start stop, w.1 < w.2) ∧
    (plan start stop).getLast? =
      some (start + 86400 * ((stop - start + 86399) / 86400 - 1),
            start + 86400 * ((stop - start + 86399) / 86400)) ∧
    stop ≤ start + 86400 * ((stop - start + 86399) / 86400) ∧
    ((stop - start) % 86400 = 0 →
      start + 86400 * ((stop - start + 86399) / 86400) = stop) := by
  have hn : 1 ≤ (stop - start + 86399) / 86400 := by omega
  rw [plan_eq]
  refine ⟨by simp, ?_, ?_, ?_, ?_, ?_, ?_⟩
  · intro i hi
    simp only [List.get_eq_getElem, List.getElem_map, List.getElem_range]
  · obtain ⟨m, hm⟩ : ∃ m, (stop - start + 86399) / 86400 = m + 1 :=
      ⟨_, (Nat.succ_pred_eq_of_pos hn).symm⟩
    rw [hm, List.range_succ_eq_map]
    simp
  · intro w hw
    simp only [List.mem_map, List.mem_range] at hw
    obtain ⟨i, _, rfl⟩ := hw
    dsimp only
    omega
  · obtain ⟨m, hm⟩ : ∃ m, (stop - start + 86399) / 86400 = m + 1 :=
      ⟨_, (Nat.succ_pred_eq_of_pos hn).symm⟩
    rw [hm, List.range_succ, List.map_append]
    simp
  · omega
  · omega

/-- Witness for C2 (amended) on the concrete range `[0, 86401)`. -/
theorem plan_windows_structure_witness :
    (plan 0 86401).length = 2 ∧
    (plan 0 86401).head? = some (0, 0 + 86400) ∧
    86401 ≤ 0 + 86400 * ((86401 - 0 + 86399) / 86400) := by
  have h := plan_windows_structure 0 86401 (by decide)
  refine ⟨?_, h.2.2.1, h.2.2.2.2.2.1⟩
  rw [h.1]

/-- C2 (counterexample to the claim as stated): for `start = 0` and
`stop = 86401` — one day plus one second, not a multiple of the one-day
increment — the final planned window is `(86400, 172800)`, whose end is
`172800 ≠ 86401`: the last window is not shortened to end at `stop`. -/
theorem plan_final_window_overshoots_stop :
    plan 0 86401 = [(0, 86400), (86400, 172800)] ∧
    (plan 0 86401).getLast? = some (86400, 172800) ∧
    (86400, 172800).2 ≠ 86401 := by
  have h : plan 0 86401 = [(0, 86400), (86400, 172800)] := by
    rw [plan_eq]
    norm_num [List.range_succ]
  exact ⟨h, by rw [h]; rfl, by decide⟩

theorem filterMap_reqOf_map_yieldRec (l : List α) :
    (l.map (LogEv.yieldRec (α := α))).filterMap reqOf = [] := by
  induction l with
  | nil => rfl
  | cons x xs ih => simp [reqOf, ih]

theorem filterMap_recOf_map_yieldRec (l : List α) :
    (l.map (LogEv.yieldRec (α := α))).filterMap recOf = l := by
  induction l with
  | nil => rfl
  | cons x xs ih => simp [recOf, ih]

theorem flatMap_singleton_eq_map (f : Nat → β) (l : List Nat) :
    l.flatMap (fun a => [f a]) = l.map f := by
  induction l with
  | nil => rfl
  | cons x xs ih => simp [ih]

theorem flatMap_pageOf (records : List α) (m : Nat) :
    (List.range m).flatMap (fun i => pageOf records i) =
      records.take (MESSAGES_PER_PAGE * m) := by
  induction m with
  | zero => simp
  | succ k ih =>
    rw [List.range_succ, List.flatMap_append, ih]
    have h : MESSAGES_PER_PAGE * (k + 1) =
        MESSAGES_PER_PAGE * k + MESSAGES_PER_PAGE := by ring
    rw [h, List.take_add]
    simp [pageOf]

/-- The page requests of a `get_logs` run: one per page index
`0 .. count / MESSAGES_PER_PAGE`, with fixed limit and offset
`MESSAGES_PER_PAGE * i`. -/
theorem requestsOf_get_logs (count : Nat) (records : List α) :
    requestsOf (get_logs count records) =
      (List.range (count / MESSAGES_PER_PAGE + 1)).map
        (fun i => (MESSAGES_PER_PAGE, MESSAGES_PER_PAGE * i)) := by
  rw [requestsOf, get_logs, List.filterMap_flatMap]
  simp only [List.filterMap_cons, reqOf, filterMap_reqOf_map_yieldRec]
  exact flatMap_singleton_eq_map _ _

/-- The records yielded by a `get_logs` run, in order: the first
`MESSAGES_PER_PAGE * (count / MESSAGES_PER_PAGE + 1)` records. -/
theorem yieldsOf_get_logs (count : Nat) (records : List α) :
    yieldsOf (get_logs count records) =
      records.take (MESSAGES_PER_PAGE * (count / MESSAGES_PER_PAGE + 1)) := by
  rw [yieldsOf, get_logs, List.filterMap_flatMap]
  simp only [List.filterMap_cons, recOf, filterMap_recOf_map_yieldRec]
  exact flatMap_pageOf records _

/-- C3: for `count = 10000·k + r` with `r > 0`, and assuming every page
request eventually receives the expected page, `get_logs` issues exactly
`k + 1` page requests, the `i`-th carrying `limit = 10000` and
`offset = 10000·i`, and yields exactly `count` records — all of them, in
page order, the whole of one page before the next request (the trace is
the per-page concatenation of one request followed by that page's
yields). -/
theorem get_logs_pages_and_yields {α : Type} (count : Nat) (records : List α)
    (hlen : records.length = count) (hr : count % MESSAGES_PER_PAGE ≠ 0) :
    requestsOf (get_logs count records) =
      (List.range (count / MESSAGES_PER_PAGE + 1)).map
        (fun i => (MESSAGES_PER_PAGE, MESSAGES_PER_PAGE * i)) ∧
    (requestsOf (get_logs count records)).length =
      count / MESSAGES_PER_PAGE + 1 ∧
    yieldsOf (get_logs count records) = records ∧
    (yieldsOf (get_logs count records)).length = count ∧
    get_logs count records =
      (List.range (count / MESSAGES_PER_PAGE + 1)).flatMap fun i =>
        LogEv.pageRequest MESSAGES_PER_PAGE (MESSAGES_PER_PAGE * i) ::
          (pageOf records i).map LogEv.yieldRec := by
  have _hr := hr
  have hy : yieldsOf (get_logs count records) = records := by
    rw [yieldsOf_get_logs]
    apply List.take_of_length_le
    rw [hlen]
    simp only [MESSAGES_PER_PAGE]
    omega
  refine ⟨requestsOf_get_logs count records, ?_, hy, ?_, rfl⟩
  · rw [requestsOf_get_logs]
    simp
  · rw [hy, hlen]

/-- Witness for C3 at `count = 3` (so `k = 0`, `r = 3`). -/
theorem get_logs_pages_and_yields_witness :
    ([0, 1, 2] : List Nat).length = 3 ∧ 3 % MESSAGES_PER_PAGE ≠ 0 ∧
    yieldsOf (get_logs 3 [0, 1, 2]) = [0, 1, 2] ∧
    requestsOf (get_logs 3 [0, 1, 2]) = [(MESSAGES_PER_PAGE, 0)] :=
  ⟨rfl, by decide,
   (get_logs_pages_and_yields 3 [0, 1, 2] rfl (by decide)).2.2.1,
   by
    rw [(get_logs_pages_and_yields 3 [0, 1, 2] rfl (by decide)).1]
    rfl⟩

/-- C9: for `count = 10000·k` with `k ≥ 1` (a positive exact multiple of
the page size), `get_logs` issues `k + 1` page requests rather than `k`:
the final request carries `offset = count`, addressing a page past the
last record (that page is empty). -/
theorem get_logs_exact_multiple_extra_page {α : Type} (k : Nat)
    (records : List α) (hk : 1 ≤ k)
    (hlen : records.length = MESSAGES_PER_PAGE * k) :
    (requestsOf (get_logs (MESSAGES_PER_PAGE * k) records)).length = k + 1 ∧
    (requestsOf (get_logs (MESSAGES_PER_PAGE * k) records)).getLast? =
      some (MESSAGES_PER_PAGE, MESSAGES_PER_PAGE * k) ∧
    pageOf records k = [] := by
  have _hk := hk
  have hdiv : MESSAGES_PER_PAGE * k / MESSAGES_PER_PAGE = k :=
    Nat.mul_div_cancel_left k (by norm_num [MESSAGES_PER_PAGE])
  refine ⟨?_, ?_, ?_⟩
  · rw [requestsOf_get_logs, hdiv]
    simp
  · rw [requestsOf_get_logs, hdiv, List.range_succ, List.map_append]
    simp
  · rw [pageOf, hlen.symm, List.drop_length]
    rfl

/-- Witness for C9 at `k = 1`: one full page of 10000 records. -/
theorem get_logs_exact_multiple_extra_page_witness :
    (List.replicate MESSAGES_PER_PAGE ()).length = MESSAGES_PER_PAGE * 1 ∧
    (requestsOf (get_logs (MESSAGES_PER_PAGE * 1)
        (List.replicate MESSAGES_PER_PAGE ()))).length = 1 + 1 :=
  ⟨by simp,
   (get_logs_exact_multiple_extra_page 1 (List.replicate MESSAGES_PER_PAGE ())
      (by decide) (by simp)).1⟩

/-- A user-supplied boundary argument that `init_dates` must reject:
present (truthy) and either malformed — `strptime` raises — or parsing to
a date strictly after `now`. -/
def rejected (now : Nat) (arg : Option String) : Prop :=
  ∃ s, truthy arg = some s ∧
    (parseDate s = none ∨ ∃ d, parseDate s = some d ∧ now < d)

theorem initDate_rejected {now : Nat} {arg : Option String}
    (h : rejected now arg) (dflt : Nat) :
    initDate now arg dflt = Except.error 1 := by
  obtain ⟨s, hs, hbad⟩ := h
  rw [initDate]
  simp only [hs]
  rcases hbad with hp | ⟨d, hp, hd⟩
  · simp only [hp]
  · simp only [hp]
    simp [hd]

theorem initDate_error_code {now : Nat} {arg : Option String} {dflt c : Nat}
    (h : initDate now arg dflt = Except.error c) : c = 1 := by
  rw [initDate] at h
  rcases harg : truthy arg with _ | s
  · simp only [harg] at h
    simp at h
  · simp only [harg] at h
    rcases hp : parseDate s with _ | d
    · simp only [hp] at h
      simp at h
      omega
    · simp only [hp] at h
      by_cases hd : now < d
      · simp [hd] at h
        omega
      · simp [hd] at h

/-- C5: for every malformed or future-dated user-supplied boundary
string (start or stop), the run exits with `SystemExit(1)` and its trace
is empty — in particular zero remote calls were made. -/
theorem init_dates_rejects_bad_dates_before_any_request
    (now : Nat) (start stop : Option String) (oracle : Nat → WindowResult)
    (h : rejected now start ∨ rejected now stop) :
    «export» now start stop oracle = ([], Except.error 1) ∧
    remoteCallCount («export» now start stop oracle).1 = 0 := by
  have hinit : init_dates now start stop = Except.error 1 := by
    rw [init_dates]
    rcases h with hb | hb
    · rw [initDate_rejected hb]
    · rcases hstart : initDate now start (dayFloor (now - DEFAULT_TIMERANGE))
        with c | v
      · have hc := initDate_error_code hstart
        subst hc
        rfl
      · rw [initDate_rejected hb]
  have hexp : «export» now start stop oracle = ([], Except.error 1) := by
    rw [«export», hinit]
  refine ⟨hexp, ?_⟩
  rw [hexp]
  rfl

/-- Witness for C5: a malformed month (`2024-13-01`) and a future date
(`3000-01-01` against `now = 0`). -/
theorem init_dates_rejects_bad_dates_before_any_request_witness :
    «export» 63872000000 (some "2024-13-01") none (fun _ => ⟨"J", 0⟩) =
      ([], Except.error 1) ∧
    «export» 0 none (some "3000-01-01") (fun _ => ⟨"J", 0⟩) =
      ([], Except.error 1) :=
  ⟨(init_dates_rejects_bad_dates_before_any_request 63872000000
      (some "2024-13-01") none (fun _ => ⟨"J", 0⟩)
      (Or.inl ⟨"2024-13-01", by decide, Or.inl (by decide)⟩)).1,
   (init_dates_rejects_bad_dates_before_any_request 0
      none (some "3000-01-01") (fun _ => ⟨"J", 0⟩)
      (Or.inr ⟨"3000-01-01", by decide,
        Or.inr ⟨86400 * daysFromCivil 3000 1 1, by decide, by decide⟩⟩)).1⟩

/-! ## The sink round trip (C7)

The reading procedure of the claim: decompress the file (which, gzip
being lossless, yields exactly the written characters), split on
newlines, drop empty lines, JSON-decode each line. -/

/-- The non-empty lines of a file's decompressed content. -/
def readLines (content : List Char) : List (List Char) :=
  (splitChar '\n' content).filter fun line => !line.isEmpty

theorem splitChar_append_sep (sep : Char) (xs rest : List Char)
    (h : sep ∉ xs) :
    splitChar sep (xs ++ sep :: rest) = xs :: splitChar sep rest := by
  induction xs with
  | nil => simp [splitChar]
  | cons c cs ih =>
    have hc : ¬ c = sep := fun hc => h (by simp [hc])
    have hcs : sep ∉ cs := fun hm => h (List.mem_cons_of_mem _ hm)
    rw [List.cons_append, splitChar, if_neg hc, ih hcs]

theorem digitChar16_ne (n : Nat) : digitChar16 n ≠ '\n' := by
  have h16 : n % 16 < 16 := Nat.mod_lt _ (by norm_num)
  rw [digitChar16]
  revert h16
  generalize n % 16 = m
  revert m
  decide

theorem newline_not_in_escapeChar (c : Char) : '\n' ∉ escapeChar c := by
  rw [escapeChar]
  split_ifs with h1 h2 h3 h4 h5 h6
  · decide
  · decide
  · decide
  · decide
  · decide
  · intro hm
    rcases List.mem_cons.mp hm with h | hm
    · exact absurd h (by decide)
    rcases List.mem_cons.mp hm with h | hm
    · exact absurd h (by decide)
    rcases List.mem_cons.mp hm with h | hm
    · exact absurd h (by decide)
    rcases List.mem_cons.mp hm with h | hm
    · exact absurd h (by decide)
    rcases List.mem_cons.mp hm with h | hm
    · exact digitChar16_ne _ h.symm
    exact digitChar16_ne _ (List.mem_singleton.mp hm).symm
  · intro hm
    exact h3 (List.mem_singleton.mp hm).symm

theorem newline_not_in_encodeString (s : String) :
    '\n' ∉ encodeString s := by
  rw [encodeString]
  intro hm
  rcases List.mem_cons.mp hm with h | hm2
  · exact absurd h (by decide)
  rcases List.mem_append.mp hm2 with hm3 | h
  · obtain ⟨a, _, ha⟩ := List.mem_flatMap.mp hm3
    exact newline_not_in_escapeChar a ha
  · exact absurd (List.mem_singleton.mp h) (by decide)

theorem mem_joinSep {c : Char} {sep : List Char} {l : List (List Char)}
    (h : c ∈ joinSep sep l) : c ∈ sep ∨ ∃ x ∈ l, c ∈ x := by
  induction l with
  | nil => simp [joinSep] at h
  | cons x xs ih =>
    cases xs with
    | nil =>
      exact Or.inr ⟨x, by simp, h⟩
    | cons y ys =>
      have hj : joinSep sep (x :: y :: ys) = x ++ sep ++ joinSep sep (y :: ys) :=
        rfl
      rw [hj] at h
      rcases List.mem_append.mp h with h1 | h2
      · rcases List.mem_append.mp h1 with hx | hs
        · exact Or.inr ⟨x, by simp, hx⟩
        · exact Or.inl hs
      · rcases ih h2 with hs | ⟨z, hz, hc⟩
        · exact Or.inl hs
        · exact Or.inr ⟨z, List.mem_cons_of_mem _ hz, hc⟩

theorem newline_not_in_dumps (r : JRecord) : '\n' ∉ dumps r := by
  rw [dumps]
  intro hm
  rcases List.mem_cons.mp hm with h | hm2
  · exact absurd h (by decide)
  rcases List.mem_append.mp hm2 with hm3 | h
  case inr => exact absurd (List.mem_singleton.mp h) (by decide)
  rcases mem_joinSep hm3 with hs | ⟨x, hx, hc⟩
  · exact absurd hs (by decide)
  obtain ⟨kv, _, rfl⟩ := List.mem_map.mp hx
  rcases List.mem_append.mp hc with h1 | h2
  · exact newline_not_in_encodeString _ h1
  rcases List.mem_cons.mp h2 with h | h2'
  · exact absurd h (by decide)
  rcases List.mem_cons.mp h2' with h | h3
  · exact absurd h (by decide)
  exact newline_not_in_encodeString _ h3

theorem dumps_not_isEmpty (r : JRecord) : (dumps r).isEmpty = false := by
  rw [dumps]
  rfl

/-- C7: feeding a record sequence to the sink and then reading the file
back — decompress, split on newlines, drop the empty trailing line,
JSON-decode each line with any decoder that inverts `dumps` on these
records — reproduces exactly the input sequence, in order. -/
theorem write_to_file_roundtrip (file_name : String) (logs : List JRecord)
    (loads : List Char → JRecord)
    (hloads : ∀ l ∈ logs, loads (dumps l) = l) :
    (readLines (write_to_file file_name logs).2).map loads = logs := by
  revert hloads
  induction logs with
  | nil =>
    intro _
    rfl
  | cons l ls ih =>
    intro hloads
    have hcontent : (write_to_file file_name (l :: ls)).2 =
        dumps l ++ '\n' :: (write_to_file file_name ls).2 := by
      simp [write_to_file]
    rw [hcontent, readLines,
      splitChar_append_sep '\n' (dumps l) _ (newline_not_in_dumps l),
      List.filter_cons_of_pos (by rw [dumps_not_isEmpty]; rfl),
      List.map_cons, hloads l (List.mem_cons_self l ls)]
    exact congrArg (l :: ·)
      (ih fun x hx => hloads x (List.mem_cons_of_mem _ hx))

/-- Witness for C7: two records round-tripped through the sink with a
concrete decoder. -/
theorem write_to_file_roundtrip_witness :
    (readLines (write_to_file "2024-01-02" [[("a", "b")], []]).2).map
      (fun s => if s = dumps [("a", "b")] then [("a", "b")] else []) =
      [[("a", "b")], []] :=
  write_to_file_roundtrip "2024-01-02" [[("a", "b")], []]
    (fun s => if s = dumps [("a", "b")] then [("a", "b")] else [])
    (by decide)

/-- C1 (evaluation at a failing input): exporting `2024-01-02 .. 2024-01-03`
with 5 records in the window opens the gzip output at path `2024-01-02` —
`write_to_file` receives `prettify(date)` bare, a path with no directory
component, relative to the process working directory — even though
`Exporter.__init__` created the `exports` directory for the output.  The
claim's "located inside the `exports` directory" fails on the code. -/
theorem export_write_path_outside_exports_dir :
    «export» (86400 * 739300) (some "2024-01-02") (some "2024-01-03")
        (fun _ => ⟨"JOBID", 5⟩) =
      ([Ev.createJob (86400 * 739192) (86400 * 739192 + 86400),
        Ev.sleepFor SLEEP_SECONDS,
        Ev.getCount (SUMOLOGIC_URL ++ "/JOBID"),
        Ev.write "2024-01-02" 5], Except.ok ()) ∧
    '/' ∉ "2024-01-02".data ∧ EXPORT_DIR = "exports" := by
  refine ⟨?_, by decide, rfl⟩
  have hinit : init_dates (86400 * 739300) (some "2024-01-02")
      (some "2024-01-03") = Except.ok (86400 * 739192, 86400 * 739193) := by
    rfl
  have hplan : plan (86400 * 739192) (86400 * 739193) =
      [(86400 * 739192, 86400 * 739192 + 86400)] := by
    rw [plan_eq]
    norm_num [List.range_succ]
  rw [«export»]
  simp only [hinit]
  rw [exportTrace, hplan]
  rfl

end SumologicExport
